import Mathlib

/-!
Verification of the Rinha tree-walking interpreter (pyrinha/main.py).

The Python source is shallowly embedded below: the AST classes become an
inductive `Term`, runtime values become `Value`, the environment is an
association list read through `envLookup`, and the recursive `evaluate`
function becomes a fuel-indexed total function returning an `Outcome`.
Python integers are unbounded, so they are modelled as `Int`; Python
floor division `//` and modulo `%` are `Int.fdiv` and `Int.fmod`.
-/

namespace Rinha

/-- Source location carried by every AST node (class `Loc`).
The Python field named `end` is called `stop` here because `end` is a
Lean keyword. -/
structure Loc where
  start : Int
  stop : Int
  filename : String
deriving DecidableEq

/-- A located identifier (class `Symbol`). -/
structure Symbol where
  location : Loc
  text : String
deriving DecidableEq

/-- Metadata of a binary operator (class `Operator`). -/
structure Operator where
  token : String
  precedence : Nat
  assoc : Bool
deriving DecidableEq

/-- The `BinaryOp` enumeration, including the stray `NOT` member. -/
inductive BinaryOp
  | add | sub | mul | div | rem | eq | neq | lt | gt | lte | gte | and | or | not
deriving DecidableEq

/-- The `Operator` payload of each `BinaryOp` member, as in the source. -/
def BinaryOp.value : BinaryOp → Operator
  | .add => ⟨"+", 30, true⟩
  | .sub => ⟨"-", 30, true⟩
  | .mul => ⟨"*", 40, true⟩
  | .div => ⟨"/", 40, true⟩
  | .rem => ⟨"%", 40, true⟩
  | .eq => ⟨"==", 20, false⟩
  | .neq => ⟨"!=", 20, false⟩
  | .lt => ⟨"<", 20, true⟩
  | .gt => ⟨">", 20, true⟩
  | .lte => ⟨"<=", 20, true⟩
  | .gte => ⟨">=", 20, true⟩
  | .and => ⟨"&", 10, true⟩
  | .or => ⟨"|", 5, true⟩
  | .not => ⟨"!", 25, true⟩

/-- The `Term` sum: one constructor per AST class deriving from `Term`.
`Let` and `If` are `letT`/`ifT` because `let` and `if` are Lean keywords. -/
inductive Term
  | letT (location : Loc) (name : Symbol) (value : Term) (next : Term)
  | function (location : Loc) (value : Term) (parameters : List Symbol)
  | ifT (location : Loc) (condition : Term) (then_ : Term) (otherwise : Term)
  | binary (location : Loc) (lhs : Term) (op : BinaryOp) (rhs : Term)
  | call (location : Loc) (callee : Term) (arguments : List Term)
  | print (location : Loc) (value : Term)
  | var (location : Loc) (text : String)
  | int (location : Loc) (value : Int)
  | str (location : Loc) (value : String)

/-- Top-level wrapper (class `File`). -/
structure File where
  location : Loc
  name : String
  expression : Term

/-- The scalar payload of a `Literal` value: Python `int | str | bool`. -/
inductive PyScalar
  | int (n : Int)
  | str (s : String)
  | bool (b : Bool)
deriving DecidableEq

/-- Runtime values (classes `Literal` and `Closure`).

A `Closure` in the source stores its defining `Function` term (inlined here
as `floc`, `fvalue`, `fparameters`) and a captured environment.  The `Let`
case of `evaluate` mutates the extended environment so that the closure
captured by a `Let` binding maps its own name to itself, creating a cyclic
`Env` → `Closure` → `Env` structure that a strictly positive inductive
cannot hold.  The cycle is represented by `selfName`: the effective captured
environment of `closure _ _ _ (some n) env` is `env` extended with `n` bound
to the closure itself, re-tied one step at a time at each use. -/
inductive Value
  | literal (x : PyScalar)
  | closure (floc : Loc) (fvalue : Term) (fparameters : List Symbol)
      (selfName : Option String) (env : List (String × Value))

/-- The environment (class `Env`): a mapping from names to values,
modelled as an association list read through `envLookup`. -/
abbrev Env := List (String × Value)

/-- Lookup in an environment: first binding with the given name wins. -/
def envLookup : Env → String → Option Value
  | [], _ => none
  | (k, v) :: rest, key => if k = key then some v else envLookup rest key

/-- `Env.with_values`: a new environment whose bindings are those of `e`
updated with `extra`, `extra` winning on conflicts (`dict.update`).  Later
entries of `extra` win over earlier ones, hence the reversal in front of
the lookup-ordered list. -/
def Env.with_values (e : Env) (extra : List (String × Value)) : Env :=
  extra.reverse ++ e

/-- `Env.global_env`: exactly the bindings of `true` and `false`. -/
def Env.global_env : Env :=
  [("true", Value.literal (PyScalar.bool true)),
   ("false", Value.literal (PyScalar.bool false))]

/-- Errors that can escape `evaluate`.  `execError` is the interpreter
class `ExecutionError`.  The other two are host (Python) exceptions that the
source does not catch: `zeroDivisionError` escapes from `//` and `%` with a
zero divisor, and `nameError` escapes from `Closure.__str__`, which
interpolates the name `args` that is bound neither in the method nor at
module scope. -/
inductive EvalErr
  | execError (msg : String)
  | zeroDivisionError
  | nameError (missing : String)
deriving DecidableEq

/-- Result of a fuel-indexed evaluation: either the fuel ran out
(`timeout`, no counterpart in the source, which recurses without bound), or
an uncaught exception together with the output printed before it was
raised, or a printed-output trace with the returned `(Env, Value)` pair. -/
inductive Outcome
  | timeout
  | error (out : List String) (e : EvalErr)
  | ok (out : List String) (env : Env) (v : Value)

/-- Prefix previously printed output onto an outcome. -/
def withOut (o : List String) : Outcome → Outcome
  | .timeout => .timeout
  | .error o2 e => .error (o ++ o2) e
  | .ok o2 env v => .ok (o ++ o2) env v

/-- A Python `int()` class pattern also matches `bool`, a subclass of
`int`; this predicate is what the patterns `int(), int()` in the source
actually test. -/
def isIntLike : PyScalar → Bool
  | .int _ => true
  | .bool _ => true
  | .str _ => false

/-- The integer a Python arithmetic operation sees: `True` is `1` and
`False` is `0`.  Never applied to strings by `applyBinary`. -/
def toPyInt : PyScalar → Int
  | .int n => n
  | .bool b => if b then 1 else 0
  | .str _ => 0

/-- Python `==` on the scalar payloads, as computed by the attrs-generated
`Literal.__eq__`: strings equal only strings, and ints and bools compare
numerically (`1 == True` holds in Python). -/
def pyScalarEq : PyScalar → PyScalar → Bool
  | .str a, .str b => a == b
  | .str _, _ => false
  | _, .str _ => false
  | a, b => toPyInt a == toPyInt b

/-- The operator dispatch of the `Binary` case of `evaluate`.  The source
matches on `op.value.token` together with the two scalar payloads; the
token is in bijection with the enum member, so the match here is on the
member.  Order of the source patterns is respected; int-like and string
patterns are disjoint, so disjoint cases may be listed in any order.
A zero divisor reaches Python `//` or `%` unguarded, so it raises the host
`ZeroDivisionError`, not an `ExecutionError`. -/
def applyBinary : BinaryOp → PyScalar → PyScalar → Except EvalErr PyScalar
  | .add, l, r =>
    if isIntLike l && isIntLike r then .ok (.int (toPyInt l + toPyInt r))
    else
      match l, r with
      | .str a, .str b => .ok (.str (a ++ b))
      | _, _ => .error (.execError "invalid operands for +")
  | .sub, l, r =>
    if isIntLike l && isIntLike r then .ok (.int (toPyInt l - toPyInt r))
    else .error (.execError "invalid operands for -")
  | .mul, l, r =>
    if isIntLike l && isIntLike r then .ok (.int (toPyInt l * toPyInt r))
    else .error (.execError "invalid operands for *")
  | .div, l, r =>
    if isIntLike l && isIntLike r then
      if toPyInt r == 0 then .error .zeroDivisionError
      else .ok (.int (Int.fdiv (toPyInt l) (toPyInt r)))
    else .error (.execError "invalid operands for /")
  | .rem, l, r =>
    if isIntLike l && isIntLike r then
      if toPyInt r == 0 then .error .zeroDivisionError
      else .ok (.int (Int.fmod (toPyInt l) (toPyInt r)))
    else .error (.execError "invalid operands for %")
  | .eq, l, r => .ok (.bool (pyScalarEq l r))
  | .neq, l, r => .ok (.bool (!pyScalarEq l r))
  | .lt, l, r =>
    if isIntLike l && isIntLike r then .ok (.bool (decide (toPyInt l < toPyInt r)))
    else
      match l, r with
      | .str a, .str b => .ok (.bool (decide (a < b)))
      | _, _ => .error (.execError "invalid operands for <")
  | .gt, l, r =>
    if isIntLike l && isIntLike r then .ok (.bool (decide (toPyInt r < toPyInt l)))
    else
      match l, r with
      | .str a, .str b => .ok (.bool (decide (b < a)))
      | _, _ => .error (.execError "invalid operands for >")
  | .lte, l, r =>
    if isIntLike l && isIntLike r then .ok (.bool (decide (toPyInt l ≤ toPyInt r)))
    else
      match l, r with
      | .str a, .str b => .ok (.bool (!decide (b < a)))
      | _, _ => .error (.execError "invalid operands for <=")
  | .gte, l, r =>
    if isIntLike l && isIntLike r then .ok (.bool (decide (toPyInt r ≤ toPyInt l)))
    else
      match l, r with
      | .str a, .str b => .ok (.bool (!decide (a < b)))
      | _, _ => .error (.execError "invalid operands for >=")
  | .and, l, r =>
    match l, r with
    | .bool a, .bool b => .ok (.bool (a && b))
    | _, _ => .error (.execError "invalid operands for &")
  | .or, l, r =>
    match l, r with
    | .bool a, .bool b => .ok (.bool (a || b))
    | _, _ => .error (.execError "invalid operands for |")
  | .not, _, _ => .error (.execError "invalid operands for !")

/-- `str()` of a `Literal` payload, as used by `print`: Python renders
booleans as `True` and `False`. -/
def pyStr : PyScalar → String
  | .int n => toString n
  | .str s => s
  | .bool b => if b then "True" else "False"

/-- `str()` of a runtime value.  For a `Closure`, `Closure.__str__`
interpolates the name `args`, which is not defined in the method, the
class, or the module; evaluating the f-string therefore raises the host
`NameError` (when the file is imported as a module; running it as a script
interpolates the unrelated argparse namespace instead of the parameter
list). -/
def valueStr : Value → Except EvalErr String
  | .literal x => .ok (pyStr x)
  | .closure _ _ _ _ _ => .error (.nameError "args")

/-- Left-to-right evaluation of a `Call` argument list, mirroring the
generator consumed by `zip` in the source.  The environments returned by
the argument evaluations are discarded, exactly as the source destructures
`(_, value)`. -/
inductive ArgsOutcome
  | timeout
  | error (out : List String) (e : EvalErr)
  | ok (out : List String) (vals : List Value)

def evalArgs (ev : Env → Term → Outcome) (env : Env) : List Term → ArgsOutcome
  | [] => .ok [] []
  | t :: ts =>
    match ev env t with
    | .timeout => .timeout
    | .error o e => .error o e
    | .ok o _ v =>
      match evalArgs ev env ts with
      | .timeout => .timeout
      | .error o2 e => .error (o ++ o2) e
      | .ok o2 vs => .ok (o ++ o2) (v :: vs)

/-- The function `evaluate(env, term)`, with a fuel bound standing in for
the unbounded Python call stack.  Each case follows the corresponding
`match` arm of the source:
* `Int`, `Str`: wrap the payload in a `Literal`.
* `Var`: environment lookup; missing name raises `ExecutionError`.
* `Let`: evaluate the bound value, extend the environment, and if the value
  is a closure, replace its captured environment by the extended
  environment (the `evolve` patch), here encoded through `selfName`.
* `Function`: capture the current environment.
* `If`: the source patterns `Literal(True)` and `Literal(False)` compare
  with `is`, so only genuine booleans select a branch; anything else raises
  `ExecutionError`.
* `Binary`: evaluate both sides, require both to be `Literal`, dispatch.
* `Call`: require a closure, check arity before evaluating arguments,
  evaluate arguments in the caller environment, bind parameters over the
  closure environment, evaluate the body.
* `Print`: evaluate, `print(val, end="")`, return the value. -/
def evaluate : Nat → Env → Term → Outcome
  | 0, _, _ => .timeout
  | fuel + 1, env, term =>
    match term with
    | .int _ value => .ok [] env (.literal (.int value))
    | .str _ value => .ok [] env (.literal (.str value))
    | .var _ text =>
      match envLookup env text with
      | none => .error [] (.execError ("unknown variable " ++ text))
      | some v => .ok [] env v
    | .letT _ name value next =>
      match evaluate fuel env value with
      | .timeout => .timeout
      | .error o e => .error o e
      | .ok o1 _ val =>
        let next_env : Env :=
          match val with
          | .closure floc fvalue fparams _ _ =>
            Env.with_values env
              [(name.text, Value.closure floc fvalue fparams (some name.text) env)]
          | _ => Env.with_values env [(name.text, val)]
        withOut o1 (evaluate fuel next_env next)
    | .function loc value parameters =>
      .ok [] env (.closure loc value parameters none env)
    | .ifT _ condition then_ otherwise =>
      match evaluate fuel env condition with
      | .timeout => .timeout
      | .error o e => .error o e
      | .ok o1 _ cond =>
        match cond with
        | .literal (.bool true) => withOut o1 (evaluate fuel env then_)
        | .literal (.bool false) => withOut o1 (evaluate fuel env otherwise)
        | _ => .error o1 (.execError "condition in if is not boolean")
    | .binary _ lhs op rhs =>
      match evaluate fuel env lhs with
      | .timeout => .timeout
      | .error o e => .error o e
      | .ok o1 _ lv =>
        match evaluate fuel env rhs with
        | .timeout => .timeout
        | .error o2 e => .error (o1 ++ o2) e
        | .ok o2 _ rv =>
          match lv, rv with
          | .literal lx, .literal rx =>
            match applyBinary op lx rx with
            | .ok c => .ok (o1 ++ o2) env (.literal c)
            | .error e => .error (o1 ++ o2) e
          | _, _ => .error (o1 ++ o2) (.execError "invalid operands")
    | .call _ callee arguments =>
      match evaluate fuel env callee with
      | .timeout => .timeout
      | .error o e => .error o e
      | .ok o1 _ f =>
        match f with
        | .literal _ => .error o1 (.execError "value is not callable")
        | .closure floc fvalue fparams selfName cenv =>
          if arguments.length ≠ fparams.length then
            .error o1 (.execError "called with wrong number of arguments")
          else
            match evalArgs (fun e2 t2 => evaluate fuel e2 t2) env arguments with
            | .timeout => .timeout
            | .error o2 e => .error (o1 ++ o2) e
            | .ok o2 vals =>
              let eff_env : Env :=
                match selfName with
                | some n => (n, Value.closure floc fvalue fparams (some n) cenv) :: cenv
                | none => cenv
              let call_env := Env.with_values eff_env ((fparams.map Symbol.text).zip vals)
              withOut (o1 ++ o2) (evaluate fuel call_env fvalue)
    | .print _ value =>
      match evaluate fuel env value with
      | .timeout => .timeout
      | .error o e => .error o e
      | .ok o1 _ val =>
        match valueStr val with
        | .error e => .error o1 e
        | .ok s => .ok (o1 ++ [s]) env val

/-- `run_file`: evaluate the root expression in the global environment. -/
def run_file (fuel : Nat) (file : File) : Outcome :=
  evaluate fuel Env.global_env file.expression

/-- A fixed location for concrete test programs; `evaluate` never reads it. -/
def L : Loc := ⟨0, 0, "test.rinha"⟩

/-! ## Pretty printer (`__str__` methods) -/

/-- The apostrophe character, Python default string-repr quote. -/
def squote : Char := Char.ofNat 39

/-- One hexadecimal digit. -/
def hexDigit (n : Nat) : Char :=
  if n < 10 then Char.ofNat (48 + n) else Char.ofNat (87 + n)

/-- One character of Python `repr()` of a string, given the chosen quote:
backslash, the quote and common control characters are escaped, other
control characters become `\xhh`.  (Python also escapes non-printable
codepoints above 0x7f, which no claim exercises; they render raw here.) -/
def pyReprChar (quote : Char) (c : Char) : String :=
  if c = '\\' then "\\\\"
  else if c = quote then "\\" ++ String.singleton quote
  else if c = '\n' then "\\n"
  else if c = '\r' then "\\r"
  else if c = '\t' then "\\t"
  else if c.toNat < 32 || c.toNat == 127 then
    "\\x" ++ String.singleton (hexDigit (c.toNat / 16)) ++ String.singleton (hexDigit (c.toNat % 16))
  else String.singleton c

/-- Python `repr()` of a string, used by `Str.__str__`: single quotes,
switching to double quotes when the string contains a single quote but no
double quote. -/
def pyRepr (s : String) : String :=
  let quote : Char := if s.contains squote && !(s.contains '"') then '"' else squote
  String.singleton quote ++ String.join (s.data.map (pyReprChar quote)) ++ String.singleton quote

/-- `textwrap.indent(s, pre)` with the default predicate: the prefix is
added to each line that contains a non-whitespace character. -/
def indent (s : String) (pre : String) : String :=
  String.intercalate "\n"
    ((s.splitOn "\n").map fun line => if line.trim = "" then line else pre ++ line)

/-- The precedence `Binary.__str__` assigns to one side: the side operator
precedence when the side `isinstance(_, Binary)`, and `99` otherwise. -/
def sidePrecedence : Term → Nat
  | .binary _ _ op _ => (BinaryOp.value op).precedence
  | _ => 99

/-- The `__str__` methods of the AST classes.  The `Binary` case wraps a
side in parentheses exactly when that side precedence (per
`sidePrecedence`) is strictly below the current operator precedence. -/
def Term.toStr : Term → String
  | .letT _ name value next =>
    "let " ++ name.text ++ " = " ++ Term.toStr value ++ ";\n" ++ Term.toStr next
  | .function _ value parameters =>
    "fn (" ++ String.intercalate ", " (parameters.map Symbol.text) ++ ") => \x7b\n"
      ++ indent (Term.toStr value) "  " ++ "\n\x7d"
  | .ifT _ condition then_ otherwise =>
    "if " ++ Term.toStr condition ++ " \x7b\n" ++ indent (Term.toStr then_) "  "
      ++ "\n\x7d else \x7b\n" ++ indent (Term.toStr otherwise) "  " ++ "\n\x7d"
  | .binary _ lhs op rhs =>
    (if sidePrecedence lhs < (BinaryOp.value op).precedence
      then "(" ++ Term.toStr lhs ++ ")" else Term.toStr lhs)
    ++ " " ++ (BinaryOp.value op).token ++ " "
    ++ (if sidePrecedence rhs < (BinaryOp.value op).precedence
      then "(" ++ Term.toStr rhs ++ ")" else Term.toStr rhs)
  | .call _ callee arguments =>
    let calleeS := Term.toStr callee
    (match callee with
      | .var _ _ => calleeS
      | _ => "(" ++ calleeS ++ ")")
    ++ "(" ++ String.intercalate ", " (arguments.attach.map fun a => Term.toStr a.1) ++ ")"
  | .print _ value => "print (" ++ Term.toStr value ++ ")"
  | .var _ text => text
  | .int _ value => toString value
  | .str _ value => pyRepr value
termination_by t => sizeOf t
decreasing_by
  all_goals simp_wf
  all_goals first
    | (have h := List.sizeOf_lt_of_mem a.2; omega)
    | omega

/-- `File.__str__` renders the root expression (named `toStr`: the `str`
name is taken by the `Term` constructor). -/
def File.toStr (f : File) : String := Term.toStr f.expression

/-! ## Definitions supporting the claims -/

/-- The printed output and final value of a successful evaluation. -/
def Outcome.result : Outcome → Option (List String × Value)
  | .ok out _ v => some (out, v)
  | _ => none

/-- The `Term` variants whose `evaluate` case returns the input `env`
directly (`return env, ...` in the source); `Let`, `If` and `Call` instead
return the result of a tail call on a possibly extended environment. -/
def directReturn : Term → Bool
  | .int _ _ => true
  | .str _ _ => true
  | .var _ _ => true
  | .function _ _ _ => true
  | .binary _ _ _ _ => true
  | .print _ _ => true
  | _ => false

/-- Follows the spec words for the parenthesization rule: a side is wrapped
iff it is itself a `Binary` whose operator precedence is strictly below the
current operator precedence; a non-`Binary` side is never wrapped (its
precedence is treated as infinite). -/
def specWrapsSide (op : BinaryOp) (side : Term) : Bool :=
  match side with
  | .binary _ _ sop _ =>
    decide ((BinaryOp.value sop).precedence < (BinaryOp.value op).precedence)
  | _ => false

/-- Follows the amended claim words for C3: `Literal` equality is Python
scalar equality — structural within one kind, with the exception that an
integer and a boolean compare by numeric value (`true` as 1, `false` as 0);
a string never equals an integer or a boolean. -/
def specPyEqAmended : PyScalar → PyScalar → Prop
  | .int m, .int n => m = n
  | .str a, .str b => a = b
  | .bool a, .bool b => a = b
  | .int m, .bool b => m = (if b then 1 else 0)
  | .bool b, .int n => (if b then (1 : Int) else 0) = n
  | _, _ => False

/-- `let f = fn (n) => if n == 0 { 1 } else { n * f(n - 1) }; f(5)`. -/
def c4prog : Term :=
  .letT L ⟨L, "f"⟩
    (.function L
      (.ifT L (.binary L (.var L "n") .eq (.int L 0))
        (.int L 1)
        (.binary L (.var L "n") .mul
          (.call L (.var L "f") [.binary L (.var L "n") .sub (.int L 1)])))
      [⟨L, "n"⟩])
    (.call L (.var L "f") [.int L 5])

/-- `let x = 1; let f = fn () => x; let x = 2; f()`. -/
def c5prog : Term :=
  .letT L ⟨L, "x"⟩ (.int L 1)
    (.letT L ⟨L, "f"⟩ (.function L (.var L "x") [])
      (.letT L ⟨L, "x"⟩ (.int L 2)
        (.call L (.var L "f") [])))

/-- `let x = 1; 2`: a `Let` whose body is a plain literal. -/
def c6prog : Term :=
  .letT L ⟨L, "x"⟩ (.int L 1) (.int L 2)

/-- A one-literal program file, used to witness determinism. -/
def c9file : File := ⟨L, "w", .int L 1⟩

/-! ## Helper lemmas -/

theorem withOut_timeout (o : List String) : withOut o .timeout = .timeout := rfl

theorem ne_timeout_of_withOut {o : List String} {x : Outcome}
    (h : withOut o x ≠ .timeout) : x ≠ .timeout := by
  intro hc
  rw [hc] at h
  exact h rfl

theorem BinaryOp.precedence_le (op : BinaryOp) : (BinaryOp.value op).precedence ≤ 40 := by
  cases op <;> decide

/-- Evaluating an argument list with a pointwise-agreeing evaluator gives
the same result, provided the original run did not exhaust its fuel. -/
theorem evalArgs_mono (ev ev2 : Env → Term → Outcome)
    (h : ∀ env t, ev env t ≠ Outcome.timeout → ev2 env t = ev env t) :
    ∀ env ts, evalArgs ev env ts ≠ ArgsOutcome.timeout →
      evalArgs ev2 env ts = evalArgs ev env ts := by
  intro env ts
  induction ts with
  | nil => intro _; rfl
  | cons a as iha =>
    intro hne
    cases ha : ev env a with
    | timeout => exact absurd (by simp only [evalArgs, ha]) hne
    | error o e =>
      have hnea : ev env a ≠ Outcome.timeout := by simp [ha]
      simp only [evalArgs, h env a hnea, ha]
    | ok o env1 v =>
      have hnea : ev env a ≠ Outcome.timeout := by simp [ha]
      have hnas : evalArgs ev env as ≠ ArgsOutcome.timeout := by
        intro hcc
        exact hne (by simp only [evalArgs, ha, hcc])
      simp only [evalArgs, h env a hnea, ha, iha hnas]

/-- Fuel irrelevance: enlarging the fuel bound of a run that did not time
out changes nothing about its result. -/
theorem evaluate_mono : ∀ fuel fuel2 : Nat, fuel ≤ fuel2 → ∀ env t,
    evaluate fuel env t ≠ .timeout → evaluate fuel2 env t = evaluate fuel env t := by
  intro fuel
  induction fuel with
  | zero =>
    intro fuel2 _ env t hne
    exact absurd rfl hne
  | succ k ih =>
    intro fuel2 hle env t hne
    obtain ⟨k2, rfl⟩ : ∃ m, fuel2 = m + 1 := ⟨fuel2 - 1, by omega⟩
    have hk : k ≤ k2 := by omega
    cases t with
    | int loc n => rfl
    | str loc s => rfl
    | var loc text => rfl
    | function loc body params => rfl
    | letT loc name value next =>
      cases hv : evaluate k env value with
      | timeout => exact absurd (by simp only [evaluate, hv]) hne
      | error o e =>
        have hnev : evaluate k env value ≠ .timeout := by simp [hv]
        simp only [evaluate, ih k2 hk env value hnev, hv]
      | ok o1 e1 val =>
        have hnev : evaluate k env value ≠ .timeout := by simp [hv]
        simp only [evaluate, hv] at hne
        simp only [evaluate, ih k2 hk env value hnev, hv]
        rw [ih k2 hk _ next (ne_timeout_of_withOut hne)]
    | ifT loc c tb ob =>
      cases hc : evaluate k env c with
      | timeout => exact absurd (by simp only [evaluate, hc]) hne
      | error o e =>
        have hnec : evaluate k env c ≠ .timeout := by simp [hc]
        simp only [evaluate, ih k2 hk env c hnec, hc]
      | ok o1 e1 cond =>
        have hnec : evaluate k env c ≠ .timeout := by simp [hc]
        simp only [evaluate, hc] at hne
        simp only [evaluate, ih k2 hk env c hnec, hc]
        cases cond with
        | literal x =>
          cases x with
          | int n => rfl
          | str s => rfl
          | bool b =>
            cases b with
            | true => rw [ih k2 hk env tb (ne_timeout_of_withOut hne)]
            | false => rw [ih k2 hk env ob (ne_timeout_of_withOut hne)]
        | closure a b c d e => rfl
    | binary loc lhs op rhs =>
      cases hl : evaluate k env lhs with
      | timeout => exact absurd (by simp only [evaluate, hl]) hne
      | error o e =>
        have hnel : evaluate k env lhs ≠ .timeout := by simp [hl]
        simp only [evaluate, ih k2 hk env lhs hnel, hl]
      | ok o1 e1 lv =>
        have hnel : evaluate k env lhs ≠ .timeout := by simp [hl]
        simp only [evaluate, hl] at hne
        simp only [evaluate, ih k2 hk env lhs hnel, hl]
        cases hr : evaluate k env rhs with
        | timeout => exact absurd (by simp only [hr]) hne
        | error o2 e =>
          have hner : evaluate k env rhs ≠ .timeout := by simp [hr]
          simp only [ih k2 hk env rhs hner, hr]
        | ok o2 e2 rv =>
          have hner : evaluate k env rhs ≠ .timeout := by simp [hr]
          simp only [ih k2 hk env rhs hner, hr]
    | call loc callee args =>
      cases hf : evaluate k env callee with
      | timeout => exact absurd (by simp only [evaluate, hf]) hne
      | error o e =>
        have hnef : evaluate k env callee ≠ .timeout := by simp [hf]
        simp only [evaluate, ih k2 hk env callee hnef, hf]
      | ok o1 e1 f =>
        have hnef : evaluate k env callee ≠ .timeout := by simp [hf]
        simp only [evaluate, ih k2 hk env callee hnef, hf]
        cases f with
        | literal x => rfl
        | closure floc fv fps sn cenv =>
          simp only [evaluate, hf] at hne
          by_cases hlen : args.length ≠ fps.length
          · simp only [if_pos hlen]
          · simp only [if_neg hlen] at hne ⊢
            have hneargs : evalArgs (fun e2 t2 => evaluate k e2 t2) env args
                ≠ ArgsOutcome.timeout := by
              intro hcc
              rw [hcc] at hne
              exact hne rfl
            rw [evalArgs_mono (fun e2 t2 => evaluate k e2 t2)
              (fun e2 t2 => evaluate k2 e2 t2)
              (fun env3 t3 h3 => ih k2 hk env3 t3 h3) env args hneargs]
            cases hargs : evalArgs (fun e2 t2 => evaluate k e2 t2) env args with
            | timeout => exact absurd hargs hneargs
            | error o2 e => simp only [hargs]
            | ok o2 vals =>
              simp only [hargs] at hne ⊢
              rw [ih k2 hk _ fv (ne_timeout_of_withOut hne)]
    | print loc value =>
      cases hv : evaluate k env value with
      | timeout => exact absurd (by simp only [evaluate, hv]) hne
      | error o e =>
        have hnev : evaluate k env value ≠ .timeout := by simp [hv]
        simp only [evaluate, ih k2 hk env value hnev, hv]
      | ok o1 e1 val =>
        have hnev : evaluate k env value ≠ .timeout := by simp [hv]
        simp only [evaluate, ih k2 hk env value hnev, hv]

/-! ## Claims -/

/-- C1: the claim says a zero right operand of `/` or `%` on integer
literals raises the interpreter error `DivisionByZero` (an
`ExecutionError`), not a host-level crash.  The code has no zero check:
Python `//` and `%` raise the host `ZeroDivisionError`, which is not an
`ExecutionError`.  This theorem evaluates the code at the failing input. -/
theorem c1_div_by_zero_is_host_error (a : Int) (fuel : Nat) (env : Env)
    (l1 l2 l3 : Loc) :
    evaluate (fuel + 1 + 1) env (.binary l1 (.int l2 a) .div (.int l3 0))
        = .error [] .zeroDivisionError
    ∧ evaluate (fuel + 1 + 1) env (.binary l1 (.int l2 a) .rem (.int l3 0))
        = .error [] .zeroDivisionError
    ∧ ∀ msg, (EvalErr.zeroDivisionError : EvalErr) ≠ .execError msg := by
  refine ⟨?_, ?_, ?_⟩
  · simp [evaluate, applyBinary, isIntLike, toPyInt]
  · simp [evaluate, applyBinary, isIntLike, toPyInt]
  · intro msg h
    exact EvalErr.noConfusion h

/-- C2: an `If` whose condition evaluates to any non-boolean value (for
example an integer or string literal, or a closure) raises the interpreter
type error instead of selecting either branch. -/
theorem c2_nonbool_condition_raises (fuel : Nat) (env : Env) (loc : Loc)
    (c t o : Term) (out : List String) (env1 : Env) (v : Value)
    (hc : evaluate fuel env c = .ok out env1 v)
    (hnb : ∀ b : Bool, v ≠ Value.literal (PyScalar.bool b)) :
    evaluate (fuel + 1) env (.ifT loc c t o)
      = .error out (.execError "condition in if is not boolean") := by
  simp only [evaluate, hc]
  cases v with
  | literal x =>
    cases x with
    | int n => rfl
    | str s => rfl
    | bool b => exact absurd rfl (hnb b)
  | closure a b c d e => rfl

theorem c2_witness :
    evaluate 1 Env.global_env (Term.int L 1)
        = .ok [] Env.global_env (.literal (.int 1))
    ∧ evaluate 2 Env.global_env (.ifT L (.int L 1) (.int L 2) (.int L 3))
        = .error [] (.execError "condition in if is not boolean") :=
  ⟨rfl,
   c2_nonbool_condition_raises 1 Env.global_env L (.int L 1) (.int L 2) (.int L 3)
     [] Env.global_env (.literal (.int 1)) rfl
     (fun b h => by simp at h)⟩

/-- C3 counterexample: the claim predicts `Literal(1) == Literal(true)`
yields false because the kinds differ; in Python `1 == True` holds, so the
code evaluates `1 == true` to `Literal(True)`, not `Literal(False)`. -/
theorem c3_counterexample :
    evaluate 2 Env.global_env (.binary L (.int L 1) .eq (.var L "true"))
      = .ok [] Env.global_env (.literal (.bool true))
    ∧ Value.literal (PyScalar.bool true) ≠ Value.literal (PyScalar.bool false) :=
  ⟨rfl, by simp⟩

/-- C3 amended: `==` and `!=` on two `Literal` scalars compute Python
scalar equality — structural within one kind, except that integers and
booleans compare numerically (`true` as 1, `false` as 0), so
`Literal(1) == Literal(true)` is true; strings never equal non-strings. -/
theorem c3_amended_python_equality (x y : PyScalar) :
    applyBinary .eq x y = .ok (.bool (pyScalarEq x y))
    ∧ applyBinary .neq x y = .ok (.bool (!pyScalarEq x y))
    ∧ (pyScalarEq x y = true ↔ specPyEqAmended x y) := by
  refine ⟨rfl, rfl, ?_⟩
  cases x <;> cases y <;>
    first
      | (simp [pyScalarEq, specPyEqAmended, toPyInt]; done)
      | (rename_i a b; cases a <;> cases b <;>
          simp [pyScalarEq, specPyEqAmended, toPyInt])

/-- C4: `Let` of a closure patches the captured environment so the body can
call itself through its own binding name; the factorial program
`let f = fn (n) => if n == 0 { 1 } else { n * f(n - 1) }; f(5)` evaluates
to `Literal(120)` with no printed output. -/
theorem c4_recursive_self_binding :
    (evaluate 50 Env.global_env c4prog).result
      = some ([], .literal (.int 120)) := rfl

/-- C5: a `Function` term captures the environment at its definition site,
so a later rebinding of `x` by an enclosing `Let` is invisible to the
closure: `let x = 1; let f = fn () => x; let x = 2; f()` evaluates to
`Literal(1)`. -/
theorem c5_lexical_capture :
    (evaluate 20 Env.global_env c5prog).result
      = some ([], .literal (.int 1)) := rfl

/-- C6 counterexample: the claim says `evaluate` always returns the input
environment as the first component.  `Let` instead returns the environment
produced by the tail evaluation of its body: on `let x = 1; 2` under the
global environment the returned environment carries the extra binding of
`x`, so it differs from the input. -/
theorem c6_counterexample :
    evaluate 3 Env.global_env c6prog
      = .ok [] (("x", Value.literal (PyScalar.int 1)) :: Env.global_env)
          (.literal (.int 2))
    ∧ ("x", Value.literal (PyScalar.int 1)) :: Env.global_env ≠ Env.global_env := by
  refine ⟨rfl, fun h => ?_⟩
  exact absurd (congrArg List.length h) (by decide)

/-- C6 amended: the returned environment equals the input environment for
the variants whose evaluation case returns directly — `Int`, `Str`, `Var`,
`Function`, `Binary` and `Print`; `Let`, `If` and `Call` return the
environment of the tail-evaluated subterm, which can strictly extend the
input (as the counterexample shows for `Let`). -/
theorem c6_amended_direct_variants_return_input_env (fuel : Nat) (env : Env)
    (t : Term) (hd : directReturn t = true) (out : List String) (env2 : Env)
    (v : Value) (h : evaluate fuel env t = .ok out env2 v) : env2 = env := by
  match fuel with
  | 0 => exact Outcome.noConfusion h
  | fuel + 1 =>
    cases t with
    | letT loc name value next => simp [directReturn] at hd
    | ifT loc c tb ob => simp [directReturn] at hd
    | call loc callee args => simp [directReturn] at hd
    | int loc n =>
      simp only [evaluate] at h
      injection h with h1 h2 h3
      exact h2.symm
    | str loc s =>
      simp only [evaluate] at h
      injection h with h1 h2 h3
      exact h2.symm
    | function loc body params =>
      simp only [evaluate] at h
      injection h with h1 h2 h3
      exact h2.symm
    | var loc text =>
      simp only [evaluate] at h
      cases hl : envLookup env text with
      | none => rw [hl] at h; exact Outcome.noConfusion h
      | some w =>
        rw [hl] at h
        injection h with h1 h2 h3
        exact h2.symm
    | binary loc lhs op rhs =>
      simp only [evaluate] at h
      repeat' split at h
      all_goals
        first
          | exact Outcome.noConfusion h
          | (injection h with ha hb hc; exact hb.symm)
    | print loc value =>
      simp only [evaluate] at h
      repeat' split at h
      all_goals
        first
          | exact Outcome.noConfusion h
          | (injection h with ha hb hc; exact hb.symm)

theorem c6_amended_witness :
    directReturn (Term.int L 5) = true
    ∧ evaluate 1 Env.global_env (Term.int L 5)
        = .ok [] Env.global_env (.literal (.int 5))
    ∧ Env.global_env = Env.global_env :=
  ⟨rfl, rfl,
   c6_amended_direct_variants_return_input_env 1 Env.global_env (Term.int L 5)
     rfl [] Env.global_env (.literal (.int 5)) rfl⟩

/-- C7: the claim says pretty-printing a `Closure` always succeeds and
lists its parameters.  `Closure.__str__` interpolates the undefined name
`args`, so rendering a closure raises the host `NameError` instead of
producing any string. -/
theorem c7_closure_str_raises_name_error :
    valueStr (Value.closure L (.var L "a") [⟨L, "a"⟩, ⟨L, "b"⟩] none Env.global_env)
      = .error (.nameError "args")
    ∧ ∀ s : String,
        (Except.error (EvalErr.nameError "args") : Except EvalErr String) ≠ .ok s :=
  ⟨rfl, fun _ h => Except.noConfusion h⟩

/-- C10: integer arithmetic is exact and unbounded: on integer literal
operands, `+`, `-` and `*` return the mathematical result, and for a
nonzero right operand `/` is floor division and `%` the floor-division
remainder, with no wraparound at any width. -/
theorem c10_exact_unbounded_arithmetic (a b : Int) (fuel : Nat) (env : Env)
    (l1 l2 l3 : Loc) :
    evaluate (fuel + 1 + 1) env (.binary l1 (.int l2 a) .add (.int l3 b))
        = .ok [] env (.literal (.int (a + b)))
    ∧ evaluate (fuel + 1 + 1) env (.binary l1 (.int l2 a) .sub (.int l3 b))
        = .ok [] env (.literal (.int (a - b)))
    ∧ evaluate (fuel + 1 + 1) env (.binary l1 (.int l2 a) .mul (.int l3 b))
        = .ok [] env (.literal (.int (a * b)))
    ∧ (b ≠ 0 →
        evaluate (fuel + 1 + 1) env (.binary l1 (.int l2 a) .div (.int l3 b))
            = .ok [] env (.literal (.int (Int.fdiv a b)))
        ∧ evaluate (fuel + 1 + 1) env (.binary l1 (.int l2 a) .rem (.int l3 b))
            = .ok [] env (.literal (.int (Int.fmod a b)))) := by
  refine ⟨?_, ?_, ?_, fun hb => ⟨?_, ?_⟩⟩
  · simp [evaluate, applyBinary, isIntLike, toPyInt]
  · simp [evaluate, applyBinary, isIntLike, toPyInt]
  · simp [evaluate, applyBinary, isIntLike, toPyInt]
  · simp [evaluate, applyBinary, isIntLike, toPyInt, hb]
  · simp [evaluate, applyBinary, isIntLike, toPyInt, hb]

/-- C8: rendering `Binary(lhs, op, rhs)` wraps a side in parentheses iff
that side is itself a `Binary` whose operator precedence is strictly less
than the precedence of `op`; a non-`Binary` side is never parenthesized.
(The 99 the source assigns to non-`Binary` sides behaves as infinity:
every operator precedence is at most 40.) -/
theorem c8_binary_parenthesization (loc : Loc) (l r : Term) (op : BinaryOp) :
    Term.toStr (.binary loc l op r)
      = (if specWrapsSide op l then "(" ++ Term.toStr l ++ ")" else Term.toStr l)
        ++ " " ++ (BinaryOp.value op).token ++ " "
        ++ (if specWrapsSide op r then "(" ++ Term.toStr r ++ ")" else Term.toStr r) := by
  have hle := BinaryOp.precedence_le op
  have h99 : ¬ (99 < (BinaryOp.value op).precedence) := by omega
  have key : ∀ s : Term,
      (if sidePrecedence s < (BinaryOp.value op).precedence
        then "(" ++ Term.toStr s ++ ")" else Term.toStr s)
      = (if specWrapsSide op s then "(" ++ Term.toStr s ++ ")" else Term.toStr s) := by
    intro s
    cases s
    case binary loc2 l2 op2 r2 => simp [sidePrecedence, specWrapsSide]
    all_goals simp [sidePrecedence, specWrapsSide, h99]
  simp only [Term.toStr]
  rw [key l, key r]

theorem c10_witness :
    (2 : Int) ≠ 0
    ∧ evaluate 2 Env.global_env (.binary L (.int L 7) .div (.int L 2))
        = .ok [] Env.global_env (.literal (.int 3)) :=
  ⟨by decide,
   by
    have h := (c10_exact_unbounded_arithmetic 7 2 0 Env.global_env L L L).2.2.2
      (by decide)
    exact h.1⟩

/-- C9: evaluation is deterministic: two successful runs of the interpreter
on the same `File` from the initial environment produce the same printed
output and the same final value (and the same returned environment).  In
the embedding a run is parametrized only by its fuel bound, so determinism
is fuel irrelevance: any two runs that both complete agree. -/
theorem c9_deterministic (f : File) (fuel1 fuel2 : Nat)
    (o1 o2 : List String) (e1 e2 : Env) (v1 v2 : Value)
    (h1 : run_file fuel1 f = .ok o1 e1 v1)
    (h2 : run_file fuel2 f = .ok o2 e2 v2) :
    o1 = o2 ∧ v1 = v2 ∧ e1 = e2 := by
  simp only [run_file] at h1 h2
  rcases Nat.le_total fuel1 fuel2 with hle | hle
  · have hm := evaluate_mono fuel1 fuel2 hle Env.global_env f.expression
      (by rw [h1]; exact fun hc => Outcome.noConfusion hc)
    rw [h1] at hm
    rw [hm] at h2
    injection h2 with a b c
    exact ⟨a, c, b⟩
  · have hm := evaluate_mono fuel2 fuel1 hle Env.global_env f.expression
      (by rw [h2]; exact fun hc => Outcome.noConfusion hc)
    rw [h2] at hm
    rw [hm] at h1
    injection h1 with a b c
    exact ⟨a.symm, c.symm, b.symm⟩

theorem c9_witness :
    run_file 5 c9file = .ok [] Env.global_env (.literal (.int 1))
    ∧ run_file 7 c9file = .ok [] Env.global_env (.literal (.int 1))
    ∧ ([] : List String) = []
      ∧ (Value.literal (PyScalar.int 1) : Value) = .literal (.int 1)
      ∧ Env.global_env = Env.global_env :=
  ⟨rfl, rfl, by
    have h := c9_deterministic c9file 5 7 [] [] Env.global_env Env.global_env
      (.literal (.int 1)) (.literal (.int 1)) rfl rfl
    exact ⟨h.1, h.2.1, h.2.2⟩⟩

end Rinha
